import Mathlib

/-!
# PedalBuild backend services: shallow embedding

This file embeds the persistence-facing services of the PedalBuild
repository (`component_inventory.py`, `bom_manager.py`, `excel_importer.py`
and the CSV-export route of `routes/bom.py`) as executable Lean functions
and proves the specification's testable properties about them.

Modelling conventions:
* SQL `TEXT` values are `List Char` (`Str`); the `components` and
  `circuit_bom` tables are Lean lists carried in a `DB` record.
* SQLite's `LIKE` (ASCII-case-insensitive, with the wildcards percent and
  underscore) is implemented directly; `=` on text is plain equality,
  matching SQLite's default BINARY collation.
* `ORDER BY k1, k2, ...` is modelled as sorting by the lexicographic key;
  row order within entirely equal keys is unspecified in SQLite, and the
  model fixes one such order via insertion sort.
* SQL `INTEGER` columns are `Int`.  The `REAL` column `confidence_score`
  is carried in hundredths (`confidence_centi : Nat`), the granularity at
  which the code ever renders it (`:.2f`); the never-read layout hints
  `position_x`/`position_y` are carried as `Option Int`.
* Timestamp columns (`created_at`/`updated_at`), which no verified claim
  reads, are omitted from the record types.
-/

namespace PedalBuild

/-- SQL TEXT, modelled as a list of characters. -/
abbrev Str := List Char

/-- ASCII lower-casing of a string, the case folding SQLite `LIKE` applies. -/
def lowerStr (s : Str) : Str := s.map Char.toLower

/-- Helper for the percent wildcard: does the rest of the pattern
(`go`, the matcher for the remaining pattern) accept some suffix of the
text? -/
def likeStar (go : Str → Bool) : Str → Bool
  | [] => go []
  | c :: t' => go (c :: t') || likeStar go t'

/-- SQLite `LIKE` pattern matching: the percent wildcard matches any
sequence of characters, the underscore wildcard matches any single
character, and ordinary characters match ASCII-case-insensitively. -/
def like : Str → Str → Bool
  | [], t => t.isEmpty
  | a :: p', t =>
    if a = '%' then likeStar (like p') t
    else
      match t with
      | [] => false
      | c :: t' => (a = '_' || a.toLower == c.toLower) && like p' t'

/-- The filter `column LIKE '%query%'` used by `search_components`. -/
def likeContains (q s : Str) : Bool := like ('%' :: (q ++ ['%'])) s

/-- The ranking test `column LIKE 'query%'` used by `search_components`. -/
def likeStarts (q s : Str) : Bool := like (q ++ ['%']) s

/-- `LIKE` applied to a nullable column: `NULL LIKE pattern` is not true. -/
def optContains (q : Str) (s : Option Str) : Bool :=
  match s with
  | none => false
  | some s => likeContains q s

/-- A row of the `components` table (timestamp columns omitted; see the
file header). -/
structure Component where
  id : Str
  type : Str
  name : Str
  value : Str
  part_number : Option Str
  quantity_in_stock : Int
  minimum_quantity : Int
deriving DecidableEq

/-- A row of the `circuit_bom` table.  `confidence_centi` holds the REAL
column `confidence_score` in hundredths (see the file header). -/
structure BOMItem where
  id : Str
  circuit_id : Str
  component_type : Str
  component_value : Str
  quantity : Int
  reference_designator : Option Str
  substitution_allowed : Bool
  substitution_notes : Option Str
  is_critical : Bool
  position_x : Option Int
  position_y : Option Int
  confidence_centi : Nat
deriving DecidableEq

/-- The database state: the two tables the services read and write. -/
structure DB where
  components : List Component
  circuit_bom : List BOMItem
deriving DecidableEq

/-- The WHERE clause of `ComponentInventoryService.search_components`:
`value LIKE %q% OR name LIKE %q% OR part_number LIKE %q%`. -/
def matchesQuery (q : Str) (c : Component) : Bool :=
  likeContains q c.value || likeContains q c.name || optContains q c.part_number

/-- The `CASE` rank of `search_components`' `ORDER BY`: 1 for an exact
value match, 2 for a value that starts with the query, 3 for a name that
starts with the query, 4 otherwise. -/
def searchTier (q : Str) (c : Component) : Nat :=
  if c.value = q then 1
  else if likeStarts q c.value then 2
  else if likeStarts q c.name then 3
  else 4

/-- The full `ORDER BY` key of `search_components`: the `CASE` rank, then
`type`, then `value`, compared lexicographically. -/
def searchKey (q : Str) (c : Component) : ℕ ×ₗ (Str ×ₗ Str) :=
  toLex (searchTier q c, toLex (c.type, c.value))

/-- Row order imposed by `search_components`' `ORDER BY`. -/
def rankLE (q : Str) (a b : Component) : Prop := searchKey q a ≤ searchKey q b

instance (q : Str) : DecidableRel (rankLE q) :=
  fun a b => inferInstanceAs (Decidable (searchKey q a ≤ searchKey q b))

instance (q : Str) : IsTotal Component (rankLE q) :=
  ⟨fun a b => le_total (searchKey q a) (searchKey q b)⟩

instance (q : Str) : IsTrans Component (rankLE q) :=
  ⟨fun _ _ _ h h' => le_trans h h'⟩

/-- `ComponentInventoryService.search_components`: keep the rows matching
the three `LIKE` filters and order them by the ranked key. -/
def search_components (db : DB) (q : Str) : List Component :=
  List.insertionSort (rankLE q) (db.components.filter (fun c => matchesQuery q c))

/-- The `ORDER BY component_type, component_value` key of `get_bom`. -/
def bomKey (i : BOMItem) : Str ×ₗ Str := toLex (i.component_type, i.component_value)

/-- Row order imposed by `get_bom`'s `ORDER BY`. -/
def bomLE (a b : BOMItem) : Prop := bomKey a ≤ bomKey b

instance : DecidableRel bomLE :=
  fun a b => inferInstanceAs (Decidable (bomKey a ≤ bomKey b))

/-- `BOMManagerService.get_bom`: the circuit's rows ordered by
(component_type, component_value). -/
def get_bom (db : DB) (cid : Str) : List BOMItem :=
  List.insertionSort bomLE (db.circuit_bom.filter (fun i => i.circuit_id == cid))

/-- A record appended to `matches` by `validate_bom`. -/
structure MatchRec where
  bom_item : BOMItem
  component : Component
  available : Bool
  quantity_needed : Int
  quantity_available : Int
deriving DecidableEq

/-- A record appended to `missing` by `validate_bom`. -/
structure MissRec where
  bom_item : BOMItem
  component : Option Component
  available : Bool
  quantity_needed : Int
  quantity_available : Int
deriving DecidableEq

/-- The per-item lookup of `validate_bom`: search the inventory for the
item's `component_value`, then keep only the components whose `type`
equals the item's `component_type`. -/
def typeMatches (db : DB) (item : BOMItem) : List Component :=
  (search_components db item.component_value).filter
    (fun c => c.type == item.component_type)

/-- One iteration of `validate_bom`'s loop: a match when the filtered
search results are non-empty and the first one has enough stock,
otherwise a miss carrying the first filtered result (or none) and its
stock (or 0). -/
def validateStep (db : DB) (item : BOMItem) : Sum MatchRec MissRec :=
  match typeMatches db item with
  | [] => Sum.inr ⟨item, none, false, item.quantity, 0⟩
  | c :: _ =>
    if c.quantity_in_stock ≥ item.quantity then
      Sum.inl ⟨item, c, true, item.quantity, c.quantity_in_stock⟩
    else
      Sum.inr ⟨item, some c, false, item.quantity, c.quantity_in_stock⟩

def matchPart : Sum MatchRec MissRec → Option MatchRec
  | Sum.inl m => some m
  | Sum.inr _ => none

def missPart : Sum MatchRec MissRec → Option MissRec
  | Sum.inl _ => none
  | Sum.inr x => some x

/-- The dictionary returned by `validate_bom`. -/
structure ValidationResult where
  total_items : Nat
  available_count : Nat
  missing_count : Nat
  completeness : ℚ
  matches' : List MatchRec
  missing : List MissRec

/-- `BOMManagerService.validate_bom`. -/
def validate_bom (db : DB) (cid : Str) : ValidationResult :=
  let bom_items := get_bom db cid
  let classified := bom_items.map (validateStep db)
  let ms := classified.filterMap matchPart
  let xs := classified.filterMap missPart
  { total_items := bom_items.length
    available_count := ms.length
    missing_count := xs.length
    completeness :=
      if bom_items.isEmpty then 0 else (ms.length : ℚ) / (bom_items.length : ℚ)
    matches' := ms
    missing := xs }

/-- The condition the spec states for a BOM item to match: the search
results for its value, filtered to its type, are non-empty and the first
filtered result has `quantity_in_stock ≥ item.quantity`. -/
def specIsMatchB (db : DB) (item : BOMItem) : Bool :=
  match (typeMatches db item).head? with
  | some c => decide (c.quantity_in_stock ≥ item.quantity)
  | none => false

/-- Python `s.split(sep)` for a single-character separator: every
separator occurrence cuts, empty chunks are kept, and the split of the
empty string is one empty chunk. -/
def pysplit (sep : Char) : Str → List Str
  | [] => [[]]
  | c :: rest =>
    match pysplit sep rest with
    | [] => [[]]
    | s :: ss => if c = sep then [] :: s :: ss else (c :: s) :: ss

/-- An entry of the shopping list built by `get_shopping_list`. -/
structure ShoppingItem where
  type : Str
  value : Str
  quantity : Int
  references : List Str
deriving DecidableEq

/-- The `references` field: Python's
`ref.split(',') if ref else []`, where both `None` and the empty string
are falsy. -/
def refsOf (ref : Option Str) : List Str :=
  match ref with
  | none => []
  | some [] => []
  | some s => pysplit ',' s

/-- The projection `get_shopping_list` applies to a BOM item. -/
def projectBOM (i : BOMItem) : ShoppingItem :=
  ⟨i.component_type, i.component_value, i.quantity, refsOf i.reference_designator⟩

/-- The projection `get_shopping_list` applies to each miss record. -/
def projectMiss (x : MissRec) : ShoppingItem := projectBOM x.bom_item

/-- The dictionary returned by `get_shopping_list`. -/
structure ShoppingResult where
  missing_items : List ShoppingItem
  total_missing : Nat
deriving DecidableEq

/-- `BOMManagerService.get_shopping_list`: re-run validation and project
each miss. -/
def get_shopping_list (db : DB) (cid : Str) : ShoppingResult :=
  let validation := validate_bom db cid
  let sl := validation.missing.map projectMiss
  ⟨sl, sl.length⟩

/-- Decimal rendering of an integer, as Python string interpolation. -/
def intStr (n : Int) : Str := (toString n).data

/-- Two-digit zero-padded rendering of a value below 100. -/
def pad2 (n : Nat) : Str :=
  if n < 10 then '0' :: (toString n).data else (toString n).data

/-- Rendering of a hundredths-scaled score with two decimal places, the
shape Python's `:.2f` produces for such values. -/
def centiStr (n : Nat) : Str := (toString (n / 100)).data ++ ['.'] ++ pad2 (n % 100)

/-- The header line of `export_bom_csv`. -/
def csvHeader : Str := "Type,Value,Quantity,Reference Designators,Critical,Confidence".data

/-- The per-item line of `export_bom_csv`, translated from the f-string:
type, value, quantity, the double-quoted `reference_designator or ''`,
`Yes`/`No` for `is_critical`, and the confidence at two decimals. -/
def csvLine (i : BOMItem) : Str :=
  i.component_type ++ [','] ++ i.component_value ++ [','] ++ intStr i.quantity
    ++ [','] ++ ['"'] ++ i.reference_designator.getD [] ++ ['"'] ++ [',']
    ++ (if i.is_critical then "Yes".data else "No".data) ++ [',']
    ++ centiStr i.confidence_centi

/-- The line `export_bom_csv` renders, written as the spec describes it:
the six comma-separated fields with the reference designators quoted,
criticality as Yes/No and the confidence at two decimal places. -/
def specCSVLine (i : BOMItem) : Str :=
  i.component_type ++ [','] ++ i.component_value ++ [','] ++ intStr i.quantity
    ++ [','] ++ ['"']
    ++ (match i.reference_designator with | some r => r | none => []) ++ ['"']
    ++ [','] ++ (if i.is_critical then "Yes".data else "No".data) ++ [',']
    ++ centiStr i.confidence_centi

/-- Python's `sep.join`. -/
def joinSep (sep : Char) : List Str → Str
  | [] => []
  | [s] => s
  | s :: s' :: ss => s ++ sep :: joinSep sep (s' :: ss)

/-- `BOMManagerService.export_bom_csv`: the header line followed by one
line per fetched BOM item, joined with newlines. -/
def export_bom_csv (db : DB) (cid : Str) : Str :=
  joinSep '\n' (csvHeader :: (get_bom db cid).map csvLine)

/-- The 404 guard of the `/export` route in `routes/bom.py`:
`not csv_content or csv_content.count("\n") <= 1`. -/
def export_route_404 (db : DB) (cid : Str) : Prop :=
  export_bom_csv db cid = [] ∨ (export_bom_csv db cid).count '\n' ≤ 1

instance (db : DB) (cid : Str) : Decidable (export_route_404 db cid) :=
  inferInstanceAs (Decidable (_ ∨ _))

/-- `ComponentInventoryService.update_quantity`: one UPDATE statement
adding `delta` to every row whose id matches; the returned flag is
`cursor.rowcount > 0`.  (The simultaneous `updated_at` touch concerns a
column outside the model.) -/
def update_quantity (db : DB) (i : Str) (delta : Int) : Bool × DB :=
  let found := db.components.any (fun c => c.id == i)
  let comps := db.components.map (fun c =>
    if c.id == i then { c with quantity_in_stock := c.quantity_in_stock + delta } else c)
  (found, { db with components := comps })

/-- The item dictionary `add_bom_item` receives (the route's request model
serialised with all keys present). -/
structure BOMItemInput where
  component_type : Str
  component_value : Str
  quantity : Int
  reference_designator : Option Str
  substitution_allowed : Bool
  substitution_notes : Option Str
  is_critical : Bool
  position_x : Option Int
  position_y : Option Int
  confidence_centi : Nat
deriving DecidableEq

/-- The storage error an uncaught failing INSERT raises. -/
inductive SqliteErr where
  | integrityErr
deriving DecidableEq

instance : DecidableEq (Except SqliteErr Bool) := fun a b =>
  match a, b with
  | Except.ok x, Except.ok y =>
    if h : x = y then isTrue (by rw [h]) else isFalse (fun hxy => h (by injection hxy))
  | Except.error x, Except.error y =>
    if h : x = y then isTrue (by rw [h]) else isFalse (fun hxy => h (by injection hxy))
  | Except.ok _, Except.error _ => isFalse (by simp)
  | Except.error _, Except.ok _ => isFalse (by simp)

/-- The id `add_bom_item` derives:
`f"{circuit_id}_{component_type}_{component_value}_{quantity}"`. -/
def bomItemId (cid : Str) (item : BOMItemInput) : Str :=
  cid ++ ['_'] ++ item.component_type ++ ['_'] ++ item.component_value
    ++ ['_'] ++ intStr item.quantity

/-- `BOMManagerService.add_bom_item`.  Modelled from the spec: the
`circuit_bom.id PRIMARY KEY` constraint comes from the spec's storage
schema (the DDL file is not among the embedded sources), so inserting a
row whose id already exists makes the storage engine raise an integrity
error, which `add_bom_item` does not catch; on a successful insert
`cursor.rowcount` is 1, so the function returns `true`. -/
def add_bom_item (db : DB) (cid : Str) (item : BOMItemInput) :
    Except SqliteErr Bool × DB :=
  let item_id := bomItemId cid item
  if db.circuit_bom.any (fun r => r.id == item_id) then
    (Except.error SqliteErr.integrityErr, db)
  else
    (Except.ok true,
     { db with circuit_bom := db.circuit_bom ++
        [⟨item_id, cid, item.component_type, item.component_value, item.quantity,
          item.reference_designator, item.substitution_allowed,
          item.substitution_notes, item.is_critical, item.position_x,
          item.position_y, item.confidence_centi⟩] })

/-- ASCII upper-casing, Python `str.upper` on the ASCII inputs at hand. -/
def upperStr (s : Str) : Str := s.map Char.toUpper

/-- Python `str.strip`: drop leading and trailing whitespace. -/
def stripStr (s : Str) : Str :=
  ((s.dropWhile Char.isWhitespace).reverse.dropWhile Char.isWhitespace).reverse

/-- The category lookup table of `InventoryImporter.normalize_type`. -/
def typeTable : List (Str × Str) :=
  [("RESISTOR".data, "resistor".data), ("RESISTORS".data, "resistor".data),
   ("CAPACITOR".data, "capacitor".data), ("CAPACITORS".data, "capacitor".data),
   ("IC".data, "ic".data), ("ICS".data, "ic".data), ("IC ".data, "ic".data),
   ("TRANSISTOR".data, "transistor".data), ("TRANSISTORS".data, "transistor".data),
   ("DIODE".data, "diode".data), ("DIODES".data, "diode".data),
   ("POT".data, "potentiometer".data), ("POTS".data, "potentiometer".data),
   ("POTENTIOMETER".data, "potentiometer".data),
   ("POTENTIOMETERS".data, "potentiometer".data),
   ("HARDWARE".data, "hardware".data), ("HARDWARE ".data, "hardware".data),
   ("SWITCH".data, "switch".data), ("LED".data, "led".data),
   ("JACK".data, "jack".data)]

/-- `InventoryImporter.normalize_type`: strip, upper-case, look up, and
fall back to `other`. -/
def normalize_type (category : Str) : Str :=
  let normalized := upperStr (stripStr category)
  ((typeTable.find? (fun p => p.1 == normalized)).map Prod.snd).getD ("other".data)

/-- Python's single-character `str.replace`. -/
def charReplace (a b : Char) (s : Str) : Str :=
  s.map (fun c => if c = a then b else c)

/-- The `clean` helper of `generate_component_id`: lower-case, then send
spaces, slashes, hyphens and dots to underscores. -/
def cleanSeg (s : Str) : Str :=
  charReplace '.' '_' (charReplace '-' '_' (charReplace '/' '_'
    (charReplace ' ' '_' (lowerStr s))))

/-- `InventoryImporter.generate_component_id`: the cleaned type, followed
by the cleaned value and the cleaned first 20 characters of the package
when those are non-empty, joined with underscores. -/
def generate_component_id (comp_type value package : Str) : Str :=
  joinSep '_' ([cleanSeg comp_type]
    ++ (if value.isEmpty then [] else [cleanSeg value])
    ++ (if package.isEmpty then [] else [cleanSeg (package.take 20)]))

/-- The component-id formula as the spec words it:
normalized(type) + "_" + normalized(value) + "_" + normalized(package[:20]). -/
def specComponentId (t v p : Str) : Str :=
  cleanSeg t ++ ['_'] ++ cleanSeg v ++ ['_'] ++ cleanSeg (p.take 20)

/-- `InventoryImporter.create_component_name`. -/
def create_component_name (subtype value : Str) : Str :=
  if ¬ subtype.isEmpty ∧ ¬ value.isEmpty then
    stripStr subtype ++ [' '] ++ stripStr value
  else if ¬ subtype.isEmpty then stripStr subtype
  else if ¬ value.isEmpty then stripStr value
  else "Unknown Component".data

/-- A parsed CSV row after `parse_csv` dropped rows missing a required
field; absent optional cells are `none` (pandas NaN). -/
structure CSVRow where
  category : Str
  humanReadableValue : Str
  quantity : Int
  subType : Option Str
  footprint : Option Str
  mfrPartNumber : Option Str
  reorderLevel : Option Int
deriving DecidableEq

/-- `InventoryImporter.transform_row` (fields the model carries). -/
def transform_row (row : CSVRow) : Component :=
  let comp_type := normalize_type row.category
  let value := row.humanReadableValue
  let package := row.footprint.getD []
  { id := generate_component_id comp_type value package
    type := comp_type
    name := create_component_name (row.subType.getD []) value
    value := value
    part_number := row.mfrPartNumber
    quantity_in_stock := row.quantity
    minimum_quantity := row.reorderLevel.getD 0 }

/-- The non-preview return value of `import_components`. -/
structure ImportResult where
  inserted : Nat
  skipped : Nat
  total_components : Nat
deriving DecidableEq

/-- One iteration of `import_components`' insert loop: skip when a row
with the same id is already in the table, insert otherwise.  The
accumulator is (inserted, skipped, table). -/
def importStep (acc : Nat × Nat × List Component) (comp : Component) :
    Nat × Nat × List Component :=
  if acc.2.2.any (fun c => c.id == comp.id) then (acc.1, acc.2.1 + 1, acc.2.2)
  else (acc.1 + 1, acc.2.1, acc.2.2 ++ [comp])

/-- `InventoryImporter.import_components` (non-preview path): transform
every row, then run the insert loop against the current table. -/
def import_components (db : DB) (rows : List CSVRow) : ImportResult × DB :=
  let comps := rows.map transform_row
  let acc := comps.foldl importStep (0, 0, db.components)
  (⟨acc.1, acc.2.1, comps.length⟩, { db with components := acc.2.2 })

/-- A query free of the two SQL LIKE wildcard characters. -/
def noWildcard (q : Str) : Prop := '%' ∉ q ∧ '_' ∉ q

instance (q : Str) : Decidable (noWildcard q) := by
  unfold noWildcard
  infer_instance

/-- The spec's search membership condition: the value, name or part
number contains the query as a substring, up to the storage engine's
default (ASCII-case-insensitive) collation for `LIKE`. -/
def substrMatch (q : Str) (c : Component) : Prop :=
  lowerStr q <:+: lowerStr c.value ∨ lowerStr q <:+: lowerStr c.name ∨
    (match c.part_number with
     | some pn => lowerStr q <:+: lowerStr pn
     | none => False)

instance (q : Str) (c : Component) : Decidable (substrMatch q c) := by
  unfold substrMatch
  cases c.part_number <;> dsimp only <;> infer_instance

/-- The search ranking tier as the spec words it: exact value match,
value-prefix match, name-prefix match, everything else — with prefix
meant up to the engine's `LIKE` collation. -/
def specTier (q : Str) (c : Component) : Nat :=
  if c.value = q then 1
  else if (lowerStr q).isPrefixOf (lowerStr c.value) then 2
  else if (lowerStr q).isPrefixOf (lowerStr c.name) then 3
  else 4

/- Concrete data used by witnesses and counterexamples: the inventory and
BOM of the spec's end-to-end example, and a few degenerate rows. -/

def compR10k : Component :=
  ⟨"resistor_10k".data, "resistor".data, "Metal Film 10k".data, "10k".data,
   none, 50, 10⟩

def bomR10k : BOMItem :=
  ⟨"fuzz_resistor_10k_2".data, "fuzz".data, "resistor".data, "10k".data, 2,
   some "R1,R2".data, false, none, true, none, none, 95⟩

def bomC100n : BOMItem :=
  ⟨"fuzz_capacitor_100nF_3".data, "fuzz".data, "capacitor".data, "100nF".data, 3,
   some "C1,C2,C3".data, false, none, false, none, none, 88⟩

def dbSample : DB := ⟨[compR10k], [bomR10k, bomC100n]⟩

def compAbc : Component :=
  ⟨"x".data, "resistor".data, "abc".data, "abc".data, none, 5, 0⟩

def dbWild : DB := ⟨[compAbc], []⟩

def bomRefEmpty : BOMItem :=
  ⟨"fuzz_capacitor_100nF_3".data, "fuzz".data, "capacitor".data, "100nF".data, 3,
   some [], false, none, false, none, none, 100⟩

def dbRefEmpty : DB := ⟨[], [bomRefEmpty]⟩

def fuzzInput : BOMItemInput :=
  ⟨"ic".data, "TL072".data, 1, some "IC1".data, false, none, true, none, none, 92⟩

def fuzzRow : BOMItem :=
  ⟨bomItemId "fuzz".data fuzzInput, "fuzz".data, "ic".data, "TL072".data, 1,
   some "IC1".data, false, none, true, none, none, 92⟩

def dbWithFuzz : DB := ⟨[], [fuzzRow]⟩

def compW : Component :=
  ⟨"r1".data, "resistor".data, "R 10k".data, "10k".data, none, 50, 10⟩

def dbW : DB := ⟨[compW], []⟩

def rowR10k : CSVRow := ⟨"RESISTOR".data, "10k".data, 50, none, none, none, none⟩

def dbEmpty : DB := ⟨[], []⟩

/-! ## Utility lemmas -/

theorem bool_eq_of_iff {a b : Bool} (h : a = true ↔ b = true) : a = b := by
  cases a <;> cases b <;> simp_all

/-! ## Semantics of the LIKE patterns used by `search_components` -/

theorem likeStar_iff (go : Str → Bool) (t : Str) :
    likeStar go t = true ↔ ∃ n, go (t.drop n) = true := by
  induction t with
  | nil =>
    simp only [likeStar, List.drop_nil]
    exact ⟨fun h => ⟨0, h⟩, fun ⟨_, h⟩ => h⟩
  | cons c t ih =>
    simp only [likeStar, Bool.or_eq_true, ih]
    constructor
    · rintro (h | ⟨n, h⟩)
      · exact ⟨0, h⟩
      · exact ⟨n + 1, h⟩
    · rintro ⟨n, h⟩
      cases n with
      | zero => exact Or.inl h
      | succ n => exact Or.inr ⟨n, h⟩

theorem like_starts_iff (q : Str) (hq1 : '%' ∉ q) (hq2 : '_' ∉ q) (t : Str) :
    likeStarts q t = true ↔ lowerStr q <+: lowerStr t := by
  induction q generalizing t with
  | nil =>
    have hL : likeStarts ([] : Str) t = true := by
      have h0 : likeStarts ([] : Str) t = likeStar (like []) t := by
        simp [likeStarts, like]
      rw [h0, likeStar_iff]
      exact ⟨t.length, by simp [like, List.drop_length]⟩
    simp [hL, lowerStr, List.nil_prefix]
  | cons a q ih =>
    have ha1 : ¬ a = '%' := fun h => hq1 (h ▸ List.mem_cons_self a q)
    have ha2 : ¬ a = '_' := fun h => hq2 (h ▸ List.mem_cons_self a q)
    have hq1' : '%' ∉ q := fun h => hq1 (List.mem_cons_of_mem _ h)
    have hq2' : '_' ∉ q := fun h => hq2 (List.mem_cons_of_mem _ h)
    cases t with
    | nil =>
      simp [likeStarts, List.cons_append, like, ha1, lowerStr, List.prefix_nil]
    | cons c t' =>
      have ihc := ih hq1' hq2' t'
      simp only [likeStarts, List.cons_append, like, if_neg ha1, Bool.and_eq_true,
        Bool.or_eq_true, decide_eq_true_eq, beq_iff_eq] at ihc ⊢
      simp only [lowerStr, List.map_cons, List.cons_prefix_cons]
      constructor
      · rintro ⟨(h | h), hrest⟩
        · exact absurd h ha2
        · exact ⟨h, ihc.mp hrest⟩
      · rintro ⟨h, hrest⟩
        exact ⟨Or.inr h, ihc.mpr hrest⟩

theorem isInfix_iff_drop {α : Type} (l₁ l₂ : List α) :
    l₁ <:+: l₂ ↔ ∃ n, l₁ <+: l₂.drop n := by
  constructor
  · rintro ⟨s, u, rfl⟩
    refine ⟨s.length, u, ?_⟩
    rw [List.append_assoc, List.drop_left]
  · rintro ⟨n, u, h⟩
    exact ⟨l₂.take n, u, by rw [List.append_assoc, h, List.take_append_drop]⟩

theorem like_contains_iff (q t : Str) (hq1 : '%' ∉ q) (hq2 : '_' ∉ q) :
    likeContains q t = true ↔ lowerStr q <:+: lowerStr t := by
  have h1 : likeContains q t = likeStar (like (q ++ ['%'])) t := by
    simp [likeContains, like]
  rw [h1, likeStar_iff, isInfix_iff_drop]
  constructor
  · rintro ⟨n, hn⟩
    refine ⟨n, ?_⟩
    have h2 := (like_starts_iff q hq1 hq2 (t.drop n)).mp hn
    simpa only [lowerStr, List.map_drop] using h2
  · rintro ⟨n, hn⟩
    refine ⟨n, ?_⟩
    refine (like_starts_iff q hq1 hq2 (t.drop n)).mpr ?_
    simpa only [lowerStr, List.map_drop] using hn

theorem likeStarts_eq_isPrefixOf (q s : Str) (hq1 : '%' ∉ q) (hq2 : '_' ∉ q) :
    likeStarts q s = (lowerStr q).isPrefixOf (lowerStr s) :=
  bool_eq_of_iff ((like_starts_iff q hq1 hq2 s).trans List.isPrefixOf_iff_prefix.symm)

theorem matchesQuery_iff_substrMatch (q : Str) (c : Component)
    (hq1 : '%' ∉ q) (hq2 : '_' ∉ q) :
    matchesQuery q c = true ↔ substrMatch q c := by
  cases hpn : c.part_number with
  | none =>
    simp [matchesQuery, substrMatch, optContains, hpn, Bool.or_eq_true,
      like_contains_iff _ _ hq1 hq2, or_assoc]
  | some pn =>
    simp [matchesQuery, substrMatch, optContains, hpn, Bool.or_eq_true,
      like_contains_iff _ _ hq1 hq2, or_assoc]

/-! ## Splitting and joining on a separator -/

theorem pysplit_ne_nil (sep : Char) (s : Str) : pysplit sep s ≠ [] := by
  cases s with
  | nil => simp [pysplit]
  | cons a rest =>
    cases h : pysplit sep rest with
    | nil => simp [pysplit, h]
    | cons x xs =>
      simp only [pysplit, h]
      split <;> simp

theorem pysplit_no_sep (sep : Char) (s : Str) (h : sep ∉ s) : pysplit sep s = [s] := by
  induction s with
  | nil => rfl
  | cons a rest ih =>
    have ha : ¬ a = sep := fun hh => h (hh ▸ List.mem_cons_self a rest)
    have h' : sep ∉ rest := fun hh => h (List.mem_cons_of_mem _ hh)
    simp [pysplit, ih h', ha]

theorem pysplit_append_sep (sep : Char) (s rest : Str) (h : sep ∉ s) :
    pysplit sep (s ++ sep :: rest) = s :: pysplit sep rest := by
  induction s with
  | nil =>
    simp only [List.nil_append, pysplit]
    cases hr : pysplit sep rest with
    | nil => exact absurd hr (pysplit_ne_nil sep rest)
    | cons x xs => simp [hr]
  | cons a s ih =>
    have ha : ¬ a = sep := fun hh => h (hh ▸ List.mem_cons_self a s)
    have h' : sep ∉ s := fun hh => h (List.mem_cons_of_mem _ hh)
    rw [List.cons_append]
    simp only [pysplit]
    rw [ih h']
    simp [ha]

theorem pysplit_joinSep (sep : Char) (ls : List Str) (hne : ls ≠ [])
    (h : ∀ l ∈ ls, sep ∉ l) : pysplit sep (joinSep sep ls) = ls := by
  induction ls with
  | nil => exact absurd rfl hne
  | cons s ls ih =>
    cases ls with
    | nil => exact pysplit_no_sep sep s (h s (List.mem_cons_self s []))
    | cons s2 ls2 =>
      show pysplit sep (s ++ sep :: joinSep sep (s2 :: ls2)) = s :: s2 :: ls2
      rw [pysplit_append_sep sep s _ (h s (List.mem_cons_self s _))]
      rw [ih (by simp) (fun l hl => h l (List.mem_cons_of_mem _ hl))]

theorem count_joinSep_two (sep : Char) (a b : Str) (ha : sep ∉ a) (hb : sep ∉ b) :
    (joinSep sep [a, b]).count sep = 1 := by
  show (a ++ sep :: b).count sep = 1
  rw [List.count_append, List.count_cons_self,
    List.count_eq_zero.mpr ha, List.count_eq_zero.mpr hb]

/-! ## Unfolding lemmas for `validate_bom` -/

theorem validate_bom_matches (db : DB) (cid : Str) :
    (validate_bom db cid).matches'
      = ((get_bom db cid).map (validateStep db)).filterMap matchPart := rfl

theorem validate_bom_missing (db : DB) (cid : Str) :
    (validate_bom db cid).missing
      = ((get_bom db cid).map (validateStep db)).filterMap missPart := rfl

theorem validate_bom_total (db : DB) (cid : Str) :
    (validate_bom db cid).total_items = (get_bom db cid).length := rfl

theorem validate_bom_avail (db : DB) (cid : Str) :
    (validate_bom db cid).available_count = (validate_bom db cid).matches'.length := rfl

theorem validate_bom_misscount (db : DB) (cid : Str) :
    (validate_bom db cid).missing_count = (validate_bom db cid).missing.length := rfl

theorem validate_bom_compl (db : DB) (cid : Str) :
    (validate_bom db cid).completeness
      = if (get_bom db cid).isEmpty then 0
        else ((validate_bom db cid).matches'.length : ℚ) / ((get_bom db cid).length : ℚ) := rfl

/-! ## Per-item behaviour of the validation loop -/

theorem validateStep_inl {db : DB} {i : BOMItem} {m : MatchRec}
    (h : validateStep db i = Sum.inl m) :
    m.bom_item = i ∧ (typeMatches db i).head? = some m.component ∧
    m.available = true ∧ m.quantity_needed = i.quantity ∧
    m.quantity_available = m.component.quantity_in_stock ∧
    m.component.quantity_in_stock ≥ i.quantity ∧
    specIsMatchB db i = true := by
  cases hT : typeMatches db i with
  | nil =>
    simp only [validateStep, hT] at h
    exact Sum.noConfusion h
  | cons c rest =>
    simp only [validateStep, hT] at h
    by_cases hc : c.quantity_in_stock ≥ i.quantity
    · rw [if_pos hc] at h
      injection h with h2
      subst h2
      exact ⟨rfl, by simp [hT], rfl, rfl, rfl, hc, by simp [specIsMatchB, hT, hc]⟩
    · rw [if_neg hc] at h
      exact Sum.noConfusion h

theorem validateStep_inr {db : DB} {i : BOMItem} {x : MissRec}
    (h : validateStep db i = Sum.inr x) :
    x.bom_item = i ∧ x.component = (typeMatches db i).head? ∧
    x.available = false ∧ x.quantity_needed = i.quantity ∧
    x.quantity_available
      = ((typeMatches db i).head?.map Component.quantity_in_stock).getD 0 ∧
    specIsMatchB db i = false := by
  cases hT : typeMatches db i with
  | nil =>
    simp only [validateStep, hT] at h
    injection h with h2
    subst h2
    exact ⟨rfl, by simp [hT], rfl, rfl, by simp [hT], by simp [specIsMatchB, hT]⟩
  | cons c rest =>
    simp only [validateStep, hT] at h
    by_cases hc : c.quantity_in_stock ≥ i.quantity
    · rw [if_pos hc] at h
      exact Sum.noConfusion h
    · rw [if_neg hc] at h
      injection h with h2
      subst h2
      exact ⟨rfl, by simp [hT], rfl, rfl, by simp [hT],
        by simp [specIsMatchB, hT, hc]⟩

theorem matches_map_bom (db : DB) (l : List BOMItem) :
    ((l.map (validateStep db)).filterMap matchPart).map MatchRec.bom_item
      = l.filter (fun i => specIsMatchB db i) := by
  rw [List.filterMap_map]
  induction l with
  | nil => rfl
  | cons i l ih =>
    simp only [List.filterMap_cons, Function.comp_apply, List.filter_cons]
    cases hs : validateStep db i with
    | inl m =>
      obtain ⟨hb, _, _, _, _, _, hm⟩ := validateStep_inl hs
      simp [matchPart, hs, hm, ih, hb]
    | inr x =>
      obtain ⟨_, _, _, _, _, hm⟩ := validateStep_inr hs
      simp [matchPart, hs, hm, ih]

theorem missing_map_bom (db : DB) (l : List BOMItem) :
    ((l.map (validateStep db)).filterMap missPart).map MissRec.bom_item
      = l.filter (fun i => ! specIsMatchB db i) := by
  rw [List.filterMap_map]
  induction l with
  | nil => rfl
  | cons i l ih =>
    simp only [List.filterMap_cons, Function.comp_apply, List.filter_cons]
    cases hs : validateStep db i with
    | inl m =>
      obtain ⟨_, _, _, _, _, _, hm⟩ := validateStep_inl hs
      simp [missPart, hs, hm, ih]
    | inr x =>
      obtain ⟨hb, _, _, _, _, hm⟩ := validateStep_inr hs
      simp [missPart, hs, hm, ih, hb]

theorem mem_matches_spec {db : DB} {cid : Str} {m : MatchRec}
    (hm : m ∈ (validate_bom db cid).matches') :
    (typeMatches db m.bom_item).head? = some m.component ∧
    m.quantity_needed = m.bom_item.quantity ∧
    m.quantity_available = m.component.quantity_in_stock ∧
    m.component.quantity_in_stock ≥ m.bom_item.quantity ∧
    specIsMatchB db m.bom_item = true := by
  rw [validate_bom_matches] at hm
  obtain ⟨a, ha, hpa⟩ := List.mem_filterMap.mp hm
  obtain ⟨i, hi, rfl⟩ := List.mem_map.mp ha
  cases hs : validateStep db i with
  | inl m' =>
    rw [hs] at hpa
    simp only [matchPart, Option.some.injEq] at hpa
    subst hpa
    obtain ⟨hb, h1, _, h3, h4, h5, h6⟩ := validateStep_inl hs
    subst hb
    exact ⟨h1, h3, h4, h5, h6⟩
  | inr x =>
    rw [hs] at hpa
    simp [matchPart] at hpa

theorem mem_missing_spec {db : DB} {cid : Str} {x : MissRec}
    (hx : x ∈ (validate_bom db cid).missing) :
    x.component = (typeMatches db x.bom_item).head? ∧
    x.quantity_needed = x.bom_item.quantity ∧
    x.quantity_available
      = ((typeMatches db x.bom_item).head?.map Component.quantity_in_stock).getD 0 ∧
    specIsMatchB db x.bom_item = false := by
  rw [validate_bom_missing] at hx
  obtain ⟨a, ha, hpa⟩ := List.mem_filterMap.mp hx
  obtain ⟨i, hi, rfl⟩ := List.mem_map.mp ha
  cases hs : validateStep db i with
  | inl m' =>
    rw [hs] at hpa
    simp [missPart] at hpa
  | inr x' =>
    rw [hs] at hpa
    simp only [missPart, Option.some.injEq] at hpa
    subst hpa
    obtain ⟨hb, h1, _, h3, h4, h5⟩ := validateStep_inr hs
    subst hb
    exact ⟨h1, h3, h4, h5⟩

theorem specIsMatchB_congr (db : DB) {a b : BOMItem}
    (ht : a.component_type = b.component_type)
    (hv : a.component_value = b.component_value)
    (hqy : a.quantity = b.quantity) :
    specIsMatchB db a = specIsMatchB db b := by
  unfold specIsMatchB typeMatches
  rw [ht, hv, hqy]

/-! ## Invariant of the import insert loop -/

theorem import_loop_inv (comps : List Component) :
    ∀ (a b : Nat) (tbl : List Component),
    (comps.foldl importStep (a, b, tbl)).1 + (comps.foldl importStep (a, b, tbl)).2.1
        = a + b + comps.length ∧
    (comps.foldl importStep (a, b, tbl)).2.2.length
          + (comps.foldl importStep (a, b, tbl)).2.1
        = tbl.length + b + comps.length ∧
    (∀ x ∈ tbl, x ∈ (comps.foldl importStep (a, b, tbl)).2.2) ∧
    (∀ comp ∈ comps, ∃ c ∈ (comps.foldl importStep (a, b, tbl)).2.2, c.id = comp.id) ∧
    ((tbl.map Component.id).Nodup →
        ((comps.foldl importStep (a, b, tbl)).2.2.map Component.id).Nodup) := by
  induction comps with
  | nil =>
    intro a b tbl
    exact ⟨rfl, by simp, fun x hx => hx, by simp, fun h => h⟩
  | cons comp comps ih =>
    intro a b tbl
    rw [List.foldl_cons]
    by_cases hdup : tbl.any (fun c => c.id == comp.id) = true
    · have hstep : importStep (a, b, tbl) comp = (a, b + 1, tbl) := by
        simp [importStep, hdup]
      rw [hstep]
      obtain ⟨h1, h2, h3, h4, h5⟩ := ih a (b + 1) tbl
      refine ⟨by simp only [List.length_cons]; omega,
        by simp only [List.length_cons]; omega, h3, ?_, h5⟩
      intro c hc
      rcases List.mem_cons.mp hc with rfl | hc'
      · obtain ⟨c0, hc0, hcid⟩ := List.any_eq_true.mp hdup
        exact ⟨c0, h3 c0 hc0, by simpa using hcid⟩
      · exact h4 c hc'
    · have hstep : importStep (a, b, tbl) comp = (a + 1, b, tbl ++ [comp]) := by
        simp [importStep, hdup]
      rw [hstep]
      obtain ⟨h1, h2, h3, h4, h5⟩ := ih (a + 1) b (tbl ++ [comp])
      have hmemc : comp ∈ tbl ++ [comp] := List.mem_append_right tbl (by simp)
      have hlen : (tbl ++ [comp]).length = tbl.length + 1 := by simp
      rw [hlen] at h2
      refine ⟨by simp only [List.length_cons]; omega,
        by simp only [List.length_cons]; omega,
        fun x hx => h3 x (List.mem_append_left _ hx), ?_, ?_⟩
      · intro c hc
        rcases List.mem_cons.mp hc with rfl | hc'
        · exact ⟨c, h3 c hmemc, rfl⟩
        · exact h4 c hc'
      · intro hnd
        refine h5 ?_
        rw [List.map_append]
        refine ((List.perm_append_singleton comp.id (tbl.map Component.id)).nodup_iff).mpr ?_
        refine List.nodup_cons.mpr ⟨?_, hnd⟩
        intro hmem
        obtain ⟨c0, hc0, hcid⟩ := List.mem_map.mp hmem
        have := List.any_eq_false.mp (Bool.eq_false_iff.mpr hdup) c0 hc0
        exact this (by simpa using hcid)

/-! ## Claim theorems -/

/-- C1: for every circuit id, `validate_bom` classifies each fetched BOM
item as a match exactly when the search results for the item's
`component_value`, filtered to the item's `component_type`
(`typeMatches`), are non-empty with first element's stock at least the
item's quantity (`specIsMatchB`); every miss record carries the first
filtered result (or none) as `component` and that component's stock
(or 0) as `quantity_available`, and every match record carries the first
filtered result, the needed quantity and its stock. -/
theorem c1_validate_classification (db : DB) (cid : Str) :
    ((validate_bom db cid).matches'.map MatchRec.bom_item
        = (get_bom db cid).filter (fun i => specIsMatchB db i)) ∧
    ((validate_bom db cid).missing.map MissRec.bom_item
        = (get_bom db cid).filter (fun i => ! specIsMatchB db i)) ∧
    (∀ m ∈ (validate_bom db cid).matches',
        (typeMatches db m.bom_item).head? = some m.component ∧
        m.quantity_needed = m.bom_item.quantity ∧
        m.quantity_available = m.component.quantity_in_stock ∧
        m.component.quantity_in_stock ≥ m.bom_item.quantity) ∧
    (∀ x ∈ (validate_bom db cid).missing,
        x.component = (typeMatches db x.bom_item).head? ∧
        x.quantity_needed = x.bom_item.quantity ∧
        x.quantity_available
          = ((typeMatches db x.bom_item).head?.map Component.quantity_in_stock).getD 0) := by
  refine ⟨?_, ?_, ?_, ?_⟩
  · rw [validate_bom_matches]
    exact matches_map_bom db (get_bom db cid)
  · rw [validate_bom_missing]
    exact missing_map_bom db (get_bom db cid)
  · intro m hm
    obtain ⟨h1, h2, h3, h4, _⟩ := mem_matches_spec hm
    exact ⟨h1, h2, h3, h4⟩
  · intro x hx
    obtain ⟨h1, h2, h3, _⟩ := mem_missing_spec hx
    exact ⟨h1, h2, h3⟩

theorem c1_validate_classification_w :
    (typeMatches dbSample bomR10k).head? = some compR10k ∧
    (2 : Int) = bomR10k.quantity ∧
    (50 : Int) = compR10k.quantity_in_stock ∧
    compR10k.quantity_in_stock ≥ bomR10k.quantity :=
  (c1_validate_classification dbSample "fuzz".data).2.2.1
    ⟨bomR10k, compR10k, true, 2, 50⟩ (by decide)

/-- C2: for every circuit id, completeness equals the number of matched
items divided by the total number of BOM items (a total rational value,
never a division error), and is exactly 0 for an empty BOM. -/
theorem c2_completeness (db : DB) (cid : Str) :
    (validate_bom db cid).completeness
        = ((validate_bom db cid).available_count : ℚ)
            / ((validate_bom db cid).total_items : ℚ) ∧
    ((validate_bom db cid).total_items = 0 →
        (validate_bom db cid).completeness = 0) := by
  constructor
  · rw [validate_bom_compl, validate_bom_avail, validate_bom_total]
    by_cases h : (get_bom db cid).isEmpty
    · rw [if_pos h]
      have h0 : (get_bom db cid).length = 0 := List.isEmpty_iff_length_eq_zero.mp h
      rw [h0]
      simp
    · rw [if_neg h]
  · intro h
    rw [validate_bom_total] at h
    rw [validate_bom_compl, if_pos (List.isEmpty_iff_length_eq_zero.mpr h)]

theorem c2_completeness_w : (validate_bom dbSample "none".data).completeness = 0 :=
  (c2_completeness dbSample "none".data).2 (by decide)

/-- C3 (amended): the shopping list is exactly the misses of
`validate_bom`, each projected once, in order, to
{type, value, quantity, references}; no matched item's projection ever
appears in it, and `total_missing` equals the validation's missing
count.  The references are the designator split on commas — with the
empty list produced not only for a null designator but also for an
empty-string designator (Python truthiness), which is the one point
where the original claim fails. -/
theorem c3_shopping_list (db : DB) (cid : Str) :
    (get_shopping_list db cid).missing_items
        = (validate_bom db cid).missing.map projectMiss ∧
    (get_shopping_list db cid).total_missing = (validate_bom db cid).missing_count ∧
    (∀ m ∈ (validate_bom db cid).matches',
        projectBOM m.bom_item ∉ (get_shopping_list db cid).missing_items) ∧
    refsOf none = [] ∧
    (∀ s, s ≠ [] → refsOf (some s) = pysplit ',' s) ∧
    refsOf (some []) = [] := by
  refine ⟨rfl, ?_, ?_, rfl, ?_, rfl⟩
  · show ((validate_bom db cid).missing.map projectMiss).length = _
    rw [List.length_map, validate_bom_misscount]
  · intro m hm hcon
    have hcon' : projectBOM m.bom_item
        ∈ (validate_bom db cid).missing.map projectMiss := hcon
    obtain ⟨x, hx, hproj⟩ := List.mem_map.mp hcon'
    have hmm := mem_matches_spec hm
    have hxx := mem_missing_spec hx
    have hfield : x.bom_item.component_type = m.bom_item.component_type ∧
        x.bom_item.component_value = m.bom_item.component_value ∧
        x.bom_item.quantity = m.bom_item.quantity := by
      have hpp : projectBOM x.bom_item = projectBOM m.bom_item := hproj
      simp only [projectBOM, ShoppingItem.mk.injEq] at hpp
      exact ⟨hpp.1, hpp.2.1, hpp.2.2.1⟩
    have hcongr := specIsMatchB_congr db hfield.1 hfield.2.1 hfield.2.2
    have hfx : (false : Bool) = true := by
      rw [← hxx.2.2.2, hcongr, hmm.2.2.2.2]
    exact Bool.noConfusion hfx
  · intro s hs
    cases s with
    | nil => exact absurd rfl hs
    | cons c cs => rfl

/-- C3 counterexample: a miss whose `reference_designator` is the empty
string (not null) gets the empty references list, while the claim's
projection (split on comma) would give a one-element list containing the
empty string. -/
theorem c3_shopping_list_cx :
    (validate_bom dbRefEmpty "fuzz".data).missing.map
        (fun x => x.bom_item.reference_designator) = [some []] ∧
    (get_shopping_list dbRefEmpty "fuzz".data).missing_items.map
        ShoppingItem.references = [[]] ∧
    pysplit ',' [] = [[]] ∧
    ([] : List Str) ≠ [[]] := by decide

theorem c3_shopping_list_w :
    projectBOM bomR10k ∉ (get_shopping_list dbSample "fuzz".data).missing_items :=
  (c3_shopping_list dbSample "fuzz".data).2.2.1
    ⟨bomR10k, compR10k, true, 2, 50⟩ (by decide)

/-- C4 (amended): for every query free of the SQL LIKE wildcards
percent and underscore, `search_components` returns exactly the
components whose value, name, or part number contains the query as a
substring (up to the storage engine's default ASCII-case-insensitive
collation for LIKE), ordered by the four-tier rank — exact value match,
value-prefix match, name-prefix match, all other matches — with ties
within a tier broken by (type, value). -/
theorem c4_search_ranked (db : DB) (q : Str) (hq : noWildcard q) :
    (search_components db q).Perm
        (db.components.filter (fun c => decide (substrMatch q c))) ∧
    (∀ c, c ∈ search_components db q ↔ c ∈ db.components ∧ substrMatch q c) ∧
    List.Sorted (rankLE q) (search_components db q) ∧
    (∀ c, searchTier q c = specTier q c) := by
  obtain ⟨hq1, hq2⟩ := hq
  have hfilt : db.components.filter (fun c => matchesQuery q c)
      = db.components.filter (fun c => decide (substrMatch q c)) :=
    List.filter_congr (fun c _ => bool_eq_of_iff (by
      rw [decide_eq_true_eq]
      exact matchesQuery_iff_substrMatch q c hq1 hq2))
  refine ⟨?_, ?_, ?_, ?_⟩
  · rw [search_components, hfilt]
    exact List.perm_insertionSort _ _
  · intro c
    rw [search_components, (List.perm_insertionSort _ _).mem_iff, List.mem_filter]
    exact and_congr_right (fun _ => matchesQuery_iff_substrMatch q c hq1 hq2)
  · exact List.sorted_insertionSort _ _
  · intro c
    have hv := likeStarts_eq_isPrefixOf q c.value hq1 hq2
    have hn := likeStarts_eq_isPrefixOf q c.name hq1 hq2
    simp only [searchTier, specTier, hv, hn]

/-- C4 counterexample: with the query `a_c` (an underscore wildcard),
search returns a component whose value `abc` does not contain the query
as a substring, so the claim fails for arbitrary queries. -/
theorem c4_search_ranked_cx :
    compAbc ∈ search_components dbWild "a_c".data ∧
    ¬ substrMatch "a_c".data compAbc := by decide

theorem c4_search_ranked_w :
    List.Sorted (rankLE "10k".data) (search_components dbSample "10k".data) :=
  (c4_search_ranked dbSample "10k".data (by decide)).2.2.1

/-- C5: `update_quantity` adds the (possibly negative, unclamped) delta
to every row with the given id and reports whether any row matched;
chaining +10 then -20 from stock 50 yields 40; an unknown id gives back
`false` with the storage unchanged and no row created. -/
theorem c5_update_quantity (db : DB) (i : Str) (d : Int) :
    ((update_quantity db i d).1 = true ↔ ∃ c ∈ db.components, c.id = i) ∧
    (∀ c ∈ db.components, c.id = i →
        { c with quantity_in_stock := c.quantity_in_stock + d }
          ∈ (update_quantity db i d).2.components) ∧
    ((∀ c ∈ db.components, c.id ≠ i) → update_quantity db i d = (false, db)) ∧
    ((update_quantity db i d).2.components.length = db.components.length) ∧
    (∀ c ∈ db.components, c.id = i → c.quantity_in_stock = 50 →
        { c with quantity_in_stock := 40 }
          ∈ (update_quantity (update_quantity db i 10).2 i (-20)).2.components) := by
  have hupd : ∀ (db' : DB) (c' : Component) (d' : Int), c' ∈ db'.components →
      c'.id = i →
      { c' with quantity_in_stock := c'.quantity_in_stock + d' }
        ∈ (update_quantity db' i d').2.components := by
    intro db' c' d' hc hcid
    have heq : (fun c => if c.id == i then
          { c with quantity_in_stock := c.quantity_in_stock + d' } else c) c'
        = { c' with quantity_in_stock := c'.quantity_in_stock + d' } := by
      simp [hcid]
    exact heq ▸ List.mem_map_of_mem _ hc
  refine ⟨?_, fun c hc hcid => hupd db c d hc hcid, ?_, ?_, ?_⟩
  · show db.components.any (fun c => c.id == i) = true ↔ _
    simp [List.any_eq_true]
  · intro hnone
    have hfound : db.components.any (fun c => c.id == i) = false := by
      rw [List.any_eq_false]
      intro c hc
      simpa using hnone c hc
    have hmap : db.components.map (fun c => if c.id == i then
          { c with quantity_in_stock := c.quantity_in_stock + d } else c)
        = db.components := by
      rw [List.map_congr_left (g := id) (fun c hc => by simp [hnone c hc]),
        List.map_id]
    show (update_quantity db i d) = (false, db)
    simp only [update_quantity]
    rw [hfound, hmap]
  · show (db.components.map _).length = _
    rw [List.length_map]
  · intro c hc hcid h50
    have h1 := hupd db c 10 hc hcid
    have h2 := hupd (update_quantity db i 10).2
      { c with quantity_in_stock := c.quantity_in_stock + 10 } (-20) h1 hcid
    have h3 : ({ c with quantity_in_stock := 40 } : Component)
        = { c with quantity_in_stock := c.quantity_in_stock + 10 + -20 } := by
      rw [h50]
      norm_num
    rw [h3]
    exact h2

theorem c5_update_quantity_w :
    ({ compW with quantity_in_stock := 40 }
        ∈ (update_quantity (update_quantity dbW "r1".data 10).2
            "r1".data (-20)).2.components) ∧
    update_quantity dbW "zz".data 5 = (false, dbW) :=
  ⟨(c5_update_quantity dbW "r1".data 10).2.2.2.2 compW (by decide) (by decide)
      (by decide),
   (c5_update_quantity dbW "zz".data 5).2.2.1 (by decide)⟩

/-- C6 counterexample: re-adding the same BOM item makes `add_bom_item`
raise an integrity error from the INSERT — it does not return a false
success flag — while the existing row stays in place. -/
theorem c6_add_duplicate_cx :
    (add_bom_item dbWithFuzz "fuzz".data fuzzInput).1
        = Except.error SqliteErr.integrityErr ∧
    (add_bom_item dbWithFuzz "fuzz".data fuzzInput).1 ≠ Except.ok false ∧
    (add_bom_item dbWithFuzz "fuzz".data fuzzInput).1 ≠ Except.ok true ∧
    (add_bom_item dbWithFuzz "fuzz".data fuzzInput).2 = dbWithFuzz := by decide

/-- C6 (amended): re-adding a BOM item with an identical
(circuit, type, value, quantity) tuple collides on the derived primary
key, so the uncaught INSERT raises an integrity error (surfaced by the
route as a 500) rather than returning a false flag; the existing row and
the table are left unchanged. -/
theorem c6_add_duplicate (db : DB) (cid : Str) (item : BOMItemInput)
    (h : ∃ r ∈ db.circuit_bom, r.id = bomItemId cid item) :
    add_bom_item db cid item = (Except.error SqliteErr.integrityErr, db) := by
  obtain ⟨r, hr, hid⟩ := h
  have hany : db.circuit_bom.any (fun r => r.id == bomItemId cid item) = true :=
    List.any_eq_true.mpr ⟨r, hr, by simpa using hid⟩
  simp only [add_bom_item]
  rw [if_pos hany]

theorem c6_add_duplicate_w :
    add_bom_item dbWithFuzz "fuzz".data fuzzInput
        = (Except.error SqliteErr.integrityErr, dbWithFuzz) :=
  c6_add_duplicate dbWithFuzz "fuzz".data fuzzInput ⟨fuzzRow, by decide, by decide⟩

/-- C7: `export_bom_csv` renders the exact header line
`Type,Value,Quantity,Reference Designators,Critical,Confidence`, then
one line per fetched BOM item whose shape is the spec's (designators
double-quoted, criticality as Yes/No, confidence at two decimals); an
empty BOM yields exactly the header, a one-line document. -/
theorem c7_export_csv (db : DB) (cid : Str) :
    (get_bom db cid = [] → export_bom_csv db cid = csvHeader) ∧
    ((∀ i ∈ get_bom db cid, '\n' ∉ csvLine i) →
        pysplit '\n' (export_bom_csv db cid)
          = csvHeader :: (get_bom db cid).map csvLine) ∧
    (∀ i, csvLine i = specCSVLine i) := by
  refine ⟨?_, ?_, ?_⟩
  · intro h
    rw [export_bom_csv, h]
    rfl
  · intro h
    rw [export_bom_csv]
    refine pysplit_joinSep '\n' _ (by simp) ?_
    intro l hl
    rcases List.mem_cons.mp hl with rfl | hl'
    · decide
    · obtain ⟨i, hi, rfl⟩ := List.mem_map.mp hl'
      exact h i hi
  · intro i
    cases hr : i.reference_designator <;> simp [csvLine, specCSVLine, hr]

theorem c7_export_csv_w :
    pysplit '\n' (export_bom_csv dbRefEmpty "fuzz".data)
      = csvHeader :: (get_bom dbRefEmpty "fuzz".data).map csvLine :=
  (c7_export_csv dbRefEmpty "fuzz".data).2.1 (by decide)

/-- C8 (amended): the import loop skips every row whose generated id is
already in the table (whether from this import or an earlier one),
keeping skipped and inserted as separate counts that add up to the row
count; existing rows survive, every imported row's id is present
afterwards, and no duplicate id is ever inserted.  For the concrete
RESISTOR/10k/50 row, the first run returns inserted=1, skipped=0 and the
second run returns inserted=0, skipped=1 (cumulatively one inserted and
one skipped). -/
theorem c8_import_duplicates (db : DB) (rows : List CSVRow) :
    (import_components db rows).1.inserted + (import_components db rows).1.skipped
        = rows.length ∧
    (import_components db rows).2.components.length
        = db.components.length + (import_components db rows).1.inserted ∧
    (∀ x ∈ db.components, x ∈ (import_components db rows).2.components) ∧
    (∀ row ∈ rows, ∃ c ∈ (import_components db rows).2.components,
        c.id = (transform_row row).id) ∧
    ((db.components.map Component.id).Nodup →
        ((import_components db rows).2.components.map Component.id).Nodup) ∧
    (import_components dbEmpty [rowR10k]).1 = ⟨1, 0, 1⟩ ∧
    (import_components (import_components dbEmpty [rowR10k]).2 [rowR10k]).1
        = ⟨0, 1, 1⟩ := by
  obtain ⟨h1, h2, h3, h4, h5⟩ :=
    import_loop_inv (rows.map transform_row) 0 0 db.components
  have hl : (rows.map transform_row).length = rows.length := List.length_map _ _
  have e1 : (import_components db rows).1.inserted
      = ((rows.map transform_row).foldl importStep (0, 0, db.components)).1 := rfl
  have e2 : (import_components db rows).1.skipped
      = ((rows.map transform_row).foldl importStep (0, 0, db.components)).2.1 := rfl
  have e3 : (import_components db rows).2.components
      = ((rows.map transform_row).foldl importStep (0, 0, db.components)).2.2 := rfl
  refine ⟨?_, ?_, ?_, ?_, ?_, by decide, by decide⟩
  · rw [e1, e2]
    omega
  · rw [e3, e1]
    omega
  · intro x hx
    rw [e3]
    exact h3 x hx
  · intro row hrow
    rw [e3]
    exact h4 (transform_row row) (List.mem_map_of_mem _ hrow)
  · intro hnd
    rw [e3]
    exact h5 hnd

/-- C8 counterexample: the second run over the identical RESISTOR/10k
row returns inserted = 0 and skipped = 1, not inserted = 1 as the claim
reads. -/
theorem c8_import_duplicates_cx :
    (import_components (import_components dbEmpty [rowR10k]).2
        [rowR10k]).1.inserted = 0 ∧
    (import_components (import_components dbEmpty [rowR10k]).2
        [rowR10k]).1.skipped = 1 ∧
    (import_components (import_components dbEmpty [rowR10k]).2
        [rowR10k]).1.inserted ≠ 1 := by decide

theorem c8_import_duplicates_w :
    ((import_components dbEmpty [rowR10k]).2.components.map Component.id).Nodup :=
  (c8_import_duplicates dbEmpty [rowR10k]).2.2.2.2.1 (by decide)

/-- C9 counterexample: for an imported row with an empty package (no
`Footprint` cell) the generated id omits the package segment entirely,
while the spec's formula would end with a trailing underscore. -/
theorem c9_component_id_cx :
    generate_component_id "resistor".data "10k".data [] = "resistor_10k".data ∧
    specComponentId "resistor".data "10k".data [] = "resistor_10k_".data ∧
    generate_component_id "resistor".data "10k".data []
        ≠ specComponentId "resistor".data "10k".data [] ∧
    (transform_row rowR10k).id = "resistor_10k".data := by decide

/-- C9 (amended): with a non-empty value, the generated component id
equals the spec's formula — cleaned type, cleaned value and cleaned
first-20-characters of the package joined by underscores — whenever the
package is non-empty; when the package is empty its segment and the
underscore before it are omitted. -/
theorem c9_component_id (t v p : Str) (hv : v ≠ []) :
    (p ≠ [] → generate_component_id t v p = specComponentId t v p) ∧
    (p = [] → generate_component_id t v p = cleanSeg t ++ ['_'] ++ cleanSeg v) := by
  have hvE : v.isEmpty = false := by
    cases v with
    | nil => exact absurd rfl hv
    | cons a l => rfl
  constructor
  · intro hp
    have hpE : p.isEmpty = false := by
      cases p with
      | nil => exact absurd rfl hp
      | cons a l => rfl
    simp only [generate_component_id, specComponentId, hvE, hpE,
      Bool.false_eq_true, if_false]
    simp [joinSep, List.append_assoc]
  · intro hp
    subst hp
    simp only [generate_component_id, hvE, Bool.false_eq_true, if_false,
      List.isEmpty_nil, if_true]
    simp [joinSep, List.append_assoc]

theorem c9_component_id_w :
    generate_component_id "resistor".data "10k".data "TO-92".data
        = specComponentId "resistor".data "10k".data "TO-92".data :=
  (c9_component_id "resistor".data "10k".data "TO-92".data (by decide)).1 (by decide)

/-- C10: the export route responds 404 whenever the rendered CSV has at
most one newline; in particular a circuit with exactly one BOM item
(whose rendered line is newline-free) yields a valid two-line document —
header plus one data line — and is still reported as not found. -/
theorem c10_export_route_404 (db : DB) (cid : Str) :
    ((export_bom_csv db cid).count '\n' ≤ 1 → export_route_404 db cid) ∧
    (∀ i, get_bom db cid = [i] → '\n' ∉ csvLine i →
        pysplit '\n' (export_bom_csv db cid) = [csvHeader, csvLine i] ∧
        export_route_404 db cid) := by
  constructor
  · intro h
    exact Or.inr h
  · intro i hbom hnl
    have hexp : export_bom_csv db cid = joinSep '\n' [csvHeader, csvLine i] := by
      rw [export_bom_csv, hbom]
      rfl
    have hcnt : (export_bom_csv db cid).count '\n' = 1 := by
      rw [hexp]
      exact count_joinSep_two '\n' csvHeader (csvLine i) (by decide) hnl
    refine ⟨?_, Or.inr (le_of_eq hcnt)⟩
    rw [hexp]
    refine pysplit_joinSep '\n' _ (by simp) ?_
    intro l hl
    rcases List.mem_cons.mp hl with rfl | hl'
    · decide
    · have hli : l = csvLine i := by simpa using hl'
      rw [hli]
      exact hnl

theorem c10_export_route_404_w :
    pysplit '\n' (export_bom_csv dbRefEmpty "fuzz".data)
        = [csvHeader, csvLine bomRefEmpty] ∧
    export_route_404 dbRefEmpty "fuzz".data :=
  (c10_export_route_404 dbRefEmpty "fuzz".data).2 bomRefEmpty (by decide) (by decide)

end PedalBuild
